import Mathlib

/-
Verification development for the BlockID Guardian media-integrity system.

The repository ships the browser UI (src/frontend/src/App.js); the backend it
calls (Fingerprinter, Anchor Log, Ledger Service) is described by the design
document only. Definitions for the backend are therefore modelled from the
spec, while the frontend handlers are shallow embeddings of the code in
App.js. All definitions are executable.
-/

set_option maxRecDepth 8000

namespace BlockID

/-- Modelled from the spec: coarse authenticity classification produced by the
Authenticity Analyzer (glossary, section 3). -/
inductive RiskLevel where
  | low
  | medium
  | high
  deriving DecidableEq, Repr

/-- Modelled from the spec: MediaRecord.verification_status enum (section 3). -/
inductive VerificationStatus where
  | pending
  | verified
  | flagged
  deriving DecidableEq, Repr

/-- Modelled from the spec: the deepfake analysis embedded in a MediaRecord at
ingestion time (section 3), together with the analyzer confidence that the
verification path reads back (section 4.4). -/
structure DeepfakeAnalysis where
  risk_level : RiskLevel
  confidence : ℚ
  analysis_summary : String
  deriving DecidableEq, Repr

/-- Modelled from the spec: MediaRecord (section 3). -/
structure MediaRecord where
  id : String
  filename : String
  file_type : String
  upload_timestamp : Nat
  file_hash : String
  verification_status : VerificationStatus
  deepfake_analysis : DeepfakeAnalysis
  deriving DecidableEq, Repr

/-- Modelled from the spec: AnchorEntry, one entry of the tamper-evident
append-only Anchor Log (section 3). -/
structure AnchorEntry where
  sequence_index : Nat
  file_hash : String
  prev_digest : Nat
  entry_digest : Nat
  anchored_at : Nat
  deriving DecidableEq, Repr

/-- Modelled from the spec: a deterministic digest primitive standing in for the
cryptographic hash used by the Anchor Log (section 4.2); it folds the bytes of a
string into an accumulator. -/
def strDigest (s : String) (acc : Nat) : Nat :=
  s.toList.foldl (fun a c => a * 131 + c.toNat + 1) acc

/-- Modelled from the spec: the fixed sentinel used as the previous digest of
the genesis entry (section 3). -/
def sentinelDigest : Nat := 0

/-- Modelled from the spec: entry_digest is a digest over
(sequence_index, file_hash, prev_digest, anchored_at) (section 3). -/
def entryDigest (seq : Nat) (fh : String) (prev : Nat) (t : Nat) : Nat :=
  strDigest fh (((seq + 1) * 1000003 + prev) * 65599 + t)

/-- Digest of the last entry of the log, or the sentinel when empty. -/
def lastDigest (log : List AnchorEntry) : Nat :=
  match log.getLast? with
  | none => sentinelDigest
  | some e => e.entry_digest

/-- Modelled from the spec: Anchor Log append (section 4.2) - sequence_index is
the current length, prev_digest is the previous entry digest or the sentinel,
entry_digest is computed over the four fields; the entry is stored at the end. -/
def appendAnchor (log : List AnchorEntry) (fh : String) (now : Nat) : List AnchorEntry :=
  let prev := lastDigest log
  let e : AnchorEntry :=
    { sequence_index := log.length
      file_hash := fh
      prev_digest := prev
      entry_digest := entryDigest log.length fh prev now
      anchored_at := now }
  log ++ [e]

/-- Modelled from the spec: chain recomputation (section 4.2) - starting from a
running previous digest, recompute every entry digest from scratch and compare
it with the stored fields. -/
def checkChainFrom : Nat → List AnchorEntry → Bool
  | _, [] => true
  | prev, e :: rest =>
    (e.prev_digest == prev) &&
    (e.entry_digest == entryDigest e.sequence_index e.file_hash prev e.anchored_at) &&
    checkChainFrom e.entry_digest rest

/-- Chain recomputation from genesis. -/
def checkChain (log : List AnchorEntry) : Bool :=
  checkChainFrom sentinelDigest log

/-- Modelled from the spec: the two failure outcomes of chain lookup
(sections 4.2 and 7): the hash is absent, or a recomputed digest mismatched. -/
inductive ChainError where
  | notFound
  | chainCorrupted
  deriving DecidableEq, Repr

/-- Modelled from the spec: verify_chain (section 4.2) - locate the entry for
the hash, recompute the digests backward to genesis for the prefix ending at
that entry, and report ChainCorrupted on any mismatch, NotFound when absent. -/
def verify_chain (log : List AnchorEntry) (h : String) : Except ChainError AnchorEntry :=
  match log.find? (fun e => e.file_hash == h) with
  | none => .error .notFound
  | some e =>
    if checkChain (log.take (log.findIdx (fun x => x.file_hash == h) + 1)) then
      .ok e
    else
      .error .chainCorrupted

/-- A reachable Anchor Log: the result of a finite sequence of append calls
(hash and timestamp per call) starting from the empty log. -/
def buildLog (calls : List (String × Nat)) : List AnchorEntry :=
  calls.foldl (fun log c => appendAnchor log c.1 c.2) []

theorem appendAnchor_length (log : List AnchorEntry) (fh : String) (t : Nat) :
    (appendAnchor log fh t).length = log.length + 1 := by
  simp [appendAnchor]

theorem appendAnchor_map_seq (log : List AnchorEntry) (fh : String) (t : Nat) :
    (appendAnchor log fh t).map (fun e => e.sequence_index)
      = log.map (fun e => e.sequence_index) ++ [log.length] := by
  simp [appendAnchor]

theorem foldl_append_seq (calls : List (String × Nat)) (log : List AnchorEntry)
    (h : log.map (fun e => e.sequence_index) = List.range log.length) :
    (calls.foldl (fun l c => appendAnchor l c.1 c.2) log).map (fun e => e.sequence_index)
      = List.range (calls.foldl (fun l c => appendAnchor l c.1 c.2) log).length := by
  induction calls generalizing log with
  | nil => simpa using h
  | cons c cs ih =>
    simp only [List.foldl_cons]
    apply ih
    rw [appendAnchor_map_seq, h, appendAnchor_length, List.range_succ]

theorem foldl_append_length (cs : List (String × Nat)) (log : List AnchorEntry) :
    (cs.foldl (fun l c => appendAnchor l c.1 c.2) log).length = log.length + cs.length := by
  induction cs generalizing log with
  | nil => simp
  | cons c cs ih =>
    simp only [List.foldl_cons, ih, appendAnchor_length, List.length_cons]
    omega

theorem buildLog_length (calls : List (String × Nat)) :
    (buildLog calls).length = calls.length := by
  simpa using foldl_append_length calls []

/-- Claim C1: for every reachable state of the Anchor Log (every finite sequence
of append calls), the stored sequence_index values are exactly 0..n-1 for a log
of n entries: unique, contiguous, gapless, and strictly increasing from 0. -/
theorem anchorLog_sequence_indexes (calls : List (String × Nat)) :
    (buildLog calls).map (fun e => e.sequence_index) = List.range (buildLog calls).length ∧
    (buildLog calls).length = calls.length ∧
    ((buildLog calls).map (fun e => e.sequence_index)).Nodup ∧
    ((buildLog calls).map (fun e => e.sequence_index)).Pairwise (· < ·) := by
  have hmap := foldl_append_seq calls [] (by simp)
  refine ⟨hmap, buildLog_length calls, ?_, ?_⟩
  · rw [show (buildLog calls) = calls.foldl (fun l c => appendAnchor l c.1 c.2) [] from rfl,
      hmap]
    exact List.nodup_range _
  · rw [show (buildLog calls) = calls.foldl (fun l c => appendAnchor l c.1 c.2) [] from rfl,
      hmap]
    exact List.pairwise_lt_range _

/-- Modelled from the spec: the analysis_details snapshot carried by a
VerificationRecord (section 3): risk level and summary from the matching
MediaRecord, or a marker when no analysis is available. -/
structure AnalysisDetails where
  risk_level : Option RiskLevel
  analysis_summary : String
  deriving DecidableEq, Repr

/-- Modelled from the spec: VerificationRecord (section 3). -/
structure VerificationRecord where
  id : String
  file_hash : String
  verification_timestamp : Nat
  is_authentic : Bool
  confidence_score : ℚ
  blockchain_verified : Bool
  analysis_details : AnalysisDetails
  deriving DecidableEq, Repr

/-- Modelled from the spec: the persisted state of the Ledger Service - the two
collections the UI reads plus the Anchor Log (sections 2 and 3). -/
structure LedgerState where
  media : List MediaRecord
  verifications : List VerificationRecord
  anchors : List AnchorEntry
  deriving DecidableEq, Repr

def emptyLedger : LedgerState :=
  { media := [], verifications := [], anchors := [] }

/-- Modelled from the spec: error taxonomy of the Ledger Service (section 7);
only the members reachable in this model appear. -/
inductive LedgerError where
  | invalidInput
  | unsupportedMediaType
  | invalidHash
  deriving DecidableEq, Repr

/-- Modelled from the spec: the Fingerprinter (section 4.1) - a deterministic
content digest of the byte stream, hex encoded to a 64-character string. -/
def fingerprint (b : List Nat) : String :=
  let n := (b.foldl (fun a x => (a * 131 + x + 1) % (2 ^ 256)) 7) % (2 ^ 256)
  let ds := Nat.toDigits 16 n
  String.mk (List.replicate (64 - ds.length) '0' ++ ds)

/-- Modelled from the spec: the Authenticity Analyzer capability interface,
analyze(content) returning (risk_level, confidence, summary) (section 9). -/
abbrev Analyzer := List Nat → RiskLevel × ℚ × String

/-- Modelled from the spec: ingestion accepts image, video, and audio MIME
families (section 4.3). -/
def supportedMime (mime : String) : Bool :=
  "image/".toList.isPrefixOf mime.toList ||
  "video/".toList.isPrefixOf mime.toList ||
  "audio/".toList.isPrefixOf mime.toList

/-- Modelled from the spec: submit (section 4.3) - validate input, fingerprint,
return the existing record when the fingerprint is already known (idempotent,
no re-analysis, no second anchor), otherwise analyze, anchor, and persist a
MediaRecord; high risk flags the record, anything else is verified. -/
def submit (a : Analyzer) (s : LedgerState) (content : List Nat)
    (filename mime rid : String) (now : Nat) :
    Except LedgerError (MediaRecord × LedgerState) :=
  if content.isEmpty then .error .invalidInput
  else if !supportedMime mime then .error .unsupportedMediaType
  else
    let fh := fingerprint content
    match s.media.find? (fun m => m.file_hash == fh) with
    | some m => .ok (m, s)
    | none =>
      let r := a content
      let newRecord : MediaRecord :=
        { id := rid
          filename := filename
          file_type := mime
          upload_timestamp := now
          file_hash := fh
          verification_status :=
            if r.1 = .high then VerificationStatus.flagged else VerificationStatus.verified
          deepfake_analysis :=
            { risk_level := r.1, confidence := r.2.1, analysis_summary := r.2.2 } }
      .ok (newRecord,
        { s with
            media := newRecord :: s.media
            anchors := appendAnchor s.anchors fh now })

/-- Modelled from the spec: well-formed hash input for verify (section 4.4) - a
hex digest of the expected length (64 lowercase hex characters). -/
def wellFormedHash (h : String) : Bool :=
  h.length == 64 && h.toList.all (fun c => c.isDigit || (('a' ≤ c) && (c ≤ 'f')))

/-- Modelled from the spec: the analysis_details marker for a hash that was
never ingested (section 4.4 step 2). -/
def unknownDetails : AnalysisDetails :=
  { risk_level := none, analysis_summary := "unknown media" }

/-- Modelled from the spec: the distinct detail surfaced when tamper detection
fires (sections 4.2 and 4.4 step 4), not conflated with the unknown marker. -/
def corruptedDetails : AnalysisDetails :=
  { risk_level := none, analysis_summary := "integrity violation: anchor chain corrupted" }

/-- Modelled from the spec: the authenticity policy over risk level
(section 4.4 step 3): low and medium are authentic, high is not. -/
def authPolicy : RiskLevel → Bool
  | .low => true
  | .medium => true
  | .high => false

/-- Modelled from the spec: steps 1-4 of verify (section 4.4) - build the
VerificationRecord from the chain lookup outcome and the media snapshot. -/
def verifyRecord (s : LedgerState) (h rid : String) (now : Nat) : VerificationRecord :=
  match verify_chain s.anchors h with
  | .error .notFound =>
    { id := rid, file_hash := h, verification_timestamp := now,
      is_authentic := false, confidence_score := 0, blockchain_verified := false,
      analysis_details := unknownDetails }
  | .error .chainCorrupted =>
    { id := rid, file_hash := h, verification_timestamp := now,
      is_authentic := false, confidence_score := 0, blockchain_verified := false,
      analysis_details := corruptedDetails }
  | .ok _ =>
    match s.media.find? (fun m => m.file_hash == h) with
    | none =>
      { id := rid, file_hash := h, verification_timestamp := now,
        is_authentic := false, confidence_score := 0, blockchain_verified := false,
        analysis_details := unknownDetails }
    | some m =>
      { id := rid, file_hash := h, verification_timestamp := now,
        is_authentic := authPolicy m.deepfake_analysis.risk_level,
        confidence_score := m.deepfake_analysis.confidence,
        blockchain_verified := true,
        analysis_details :=
          { risk_level := some m.deepfake_analysis.risk_level,
            analysis_summary := m.deepfake_analysis.analysis_summary } }

/-- Modelled from the spec: verify (section 4.4) - reject a malformed hash,
otherwise build the VerificationRecord and persist it (step 5); the state is
returned in every case so the frame of the operation is explicit. -/
def verify (s : LedgerState) (h rid : String) (now : Nat) :
    Except LedgerError VerificationRecord × LedgerState :=
  if !wellFormedHash h then (.error .invalidHash, s)
  else
    let r := verifyRecord s h rid now
    (.ok r, { s with verifications := r :: s.verifications })

def anchorHashes (s : LedgerState) : List String :=
  s.anchors.map (fun e => e.file_hash)

def mediaHashes (s : LedgerState) : List String :=
  s.media.map (fun m => m.file_hash)

/-- Invariant of ledger states: anchor hashes are pairwise distinct and every
anchored hash has a media record. -/
def GoodState (s : LedgerState) : Prop :=
  (anchorHashes s).Nodup ∧ ∀ h, h ∈ anchorHashes s → h ∈ mediaHashes s

theorem appendAnchor_map_hash (log : List AnchorEntry) (fh : String) (t : Nat) :
    (appendAnchor log fh t).map (fun e => e.file_hash)
      = log.map (fun e => e.file_hash) ++ [fh] := by
  simp [appendAnchor]

theorem submit_ok_cases (a : Analyzer) (s : LedgerState) (content : List Nat)
    (fn mime rid : String) (now : Nat) (r : MediaRecord) (s' : LedgerState)
    (h : submit a s content fn mime rid now = .ok (r, s')) :
    content.isEmpty = false ∧ supportedMime mime = true ∧
    r.file_hash = fingerprint content ∧
    ((s.media.find? (fun m => m.file_hash == fingerprint content) = some r ∧ s' = s) ∨
     (s.media.find? (fun m => m.file_hash == fingerprint content) = none ∧
      s'.media = r :: s.media ∧ s'.verifications = s.verifications ∧
      s'.anchors = appendAnchor s.anchors (fingerprint content) now)) := by
  unfold submit at h
  by_cases he : content.isEmpty
  · simp [he] at h
  · by_cases hm : supportedMime mime
    · simp only [he, hm, Bool.not_true, if_false, Bool.false_eq_true] at h
      cases hfind : s.media.find? (fun m => m.file_hash == fingerprint content) with
      | some m =>
        simp only [hfind, Except.ok.injEq, Prod.mk.injEq] at h
        obtain ⟨h1, h2⟩ := h
        subst h1
        subst h2
        refine ⟨by simp [he], by simp [hm], ?_, Or.inl ⟨rfl, rfl⟩⟩
        simpa using List.find?_some hfind
      | none =>
        simp only [hfind, Except.ok.injEq, Prod.mk.injEq] at h
        obtain ⟨h1, h2⟩ := h
        refine ⟨by simp [he], by simp [hm], ?_, Or.inr ⟨rfl, ?_, ?_, ?_⟩⟩
        · rw [← h1]
        · rw [← h2, ← h1]
        · rw [← h2]
        · rw [← h2]
    · simp [he, hm] at h

theorem submit_good (a : Analyzer) (s : LedgerState) (content : List Nat)
    (fn mime rid : String) (now : Nat) (r : MediaRecord) (s' : LedgerState)
    (hgood : GoodState s)
    (h : submit a s content fn mime rid now = .ok (r, s')) :
    GoodState s' := by
  obtain ⟨-, -, hfh, hcase⟩ := submit_ok_cases a s content fn mime rid now r s' h
  rcases hcase with ⟨-, rfl⟩ | ⟨hfind, hm, -, ha⟩
  · exact hgood
  · obtain ⟨hnodup, hsub⟩ := hgood
    have hnotmedia : fingerprint content ∉ mediaHashes s := by
      intro hmem
      obtain ⟨m, hm1, hm2⟩ := List.mem_map.mp hmem
      have := List.find?_eq_none.mp hfind m hm1
      simp [hm2] at this
    have hnotanchor : fingerprint content ∉ anchorHashes s := fun hx => hnotmedia (hsub _ hx)
    have hha : anchorHashes s' = anchorHashes s ++ [fingerprint content] := by
      unfold anchorHashes
      rw [ha, appendAnchor_map_hash]
    have hhm : mediaHashes s' = r.file_hash :: mediaHashes s := by
      unfold mediaHashes
      rw [hm, List.map_cons]
    constructor
    · rw [hha, List.nodup_append]
      exact ⟨hnodup, List.nodup_singleton _, by
        intro x hx hx1
        simp only [List.mem_singleton] at hx1
        exact hnotanchor (hx1 ▸ hx)⟩
    · intro x hx
      rw [hha, List.mem_append, List.mem_singleton] at hx
      rw [hhm, List.mem_cons]
      rcases hx with hx | rfl
      · exact Or.inr (hsub _ hx)
      · exact Or.inl hfh.symm

/-- Claim C2: submit is idempotent on identical content - for every byte content,
submitting it twice yields the same file_hash both times (the deterministic
fingerprint of the content), the second call returns the existing MediaRecord
with the state unchanged (no re-analysis, no re-anchoring), and the Anchor Log
holds at most one AnchorEntry for that fingerprint. -/
theorem submit_idempotent (a : Analyzer) (s : LedgerState) (content : List Nat)
    (fn1 mime1 rid1 : String) (t1 : Nat) (fn2 mime2 rid2 : String) (t2 : Nat)
    (r1 : MediaRecord) (s1 : LedgerState)
    (hgood : GoodState s)
    (h1 : submit a s content fn1 mime1 rid1 t1 = .ok (r1, s1))
    (hm2 : supportedMime mime2 = true) :
    submit a s1 content fn2 mime2 rid2 t2 = .ok (r1, s1) ∧
    r1.file_hash = fingerprint content ∧
    List.count (fingerprint content) (anchorHashes s1) ≤ 1 := by
  obtain ⟨hne, -, hfh, hcase⟩ := submit_ok_cases a s content fn1 mime1 rid1 t1 r1 s1 h1
  have hgood1 : GoodState s1 := submit_good a s content fn1 mime1 rid1 t1 r1 s1 hgood h1
  have hfind1 : s1.media.find? (fun m => m.file_hash == fingerprint content) = some r1 := by
    rcases hcase with ⟨hfind, rfl⟩ | ⟨-, hm, -, -⟩
    · exact hfind
    · rw [hm]
      apply List.find?_cons_of_pos
      simp [hfh]
  refine ⟨?_, hfh, ?_⟩
  · unfold submit
    simp only [hne, hm2, Bool.not_true, if_false, Bool.false_eq_true, hfind1]
  · exact List.nodup_iff_count_le_one.mp hgood1.1 _

def demoAnalyzer : Analyzer := fun x =>
  match x with
  | _ => (RiskLevel.low, 19 / 20, "ok")

def demoRec1 : MediaRecord :=
  { id := "id1", filename := "a.png", file_type := "image/png", upload_timestamp := 5,
    file_hash := fingerprint [1, 2, 3],
    verification_status := .verified,
    deepfake_analysis :=
      { risk_level := .low, confidence := 19 / 20, analysis_summary := "ok" } }

def demoState1 : LedgerState :=
  { media := [demoRec1], verifications := [],
    anchors := appendAnchor [] (fingerprint [1, 2, 3]) 5 }

theorem submit_idempotent_witness :
    GoodState emptyLedger ∧
    supportedMime "image/png" = true ∧
    submit demoAnalyzer emptyLedger [1, 2, 3] "a.png" "image/png" "id1" 5
      = .ok (demoRec1, demoState1) ∧
    (submit demoAnalyzer demoState1 [1, 2, 3] "b.png" "image/png" "id2" 6
        = .ok (demoRec1, demoState1) ∧
      demoRec1.file_hash = fingerprint [1, 2, 3] ∧
      List.count (fingerprint [1, 2, 3]) (anchorHashes demoState1) ≤ 1) := by
  have hgood : GoodState emptyLedger :=
    ⟨by simp [anchorHashes, emptyLedger], by simp [anchorHashes, emptyLedger]⟩
  have h1 : submit demoAnalyzer emptyLedger [1, 2, 3] "a.png" "image/png" "id1" 5
      = .ok (demoRec1, demoState1) := by rfl
  exact ⟨hgood, rfl, h1,
    submit_idempotent demoAnalyzer emptyLedger [1, 2, 3] "a.png" "image/png" "id1" 5
      "b.png" "image/png" "id2" 6 demoRec1 demoState1 hgood h1 rfl⟩

/-- Claim C3: whenever the chain lookup finds the hash but a recomputed digest
mismatches a stored digest (tampering), the outcome is the distinct
ChainCorrupted error - never NotFound - and the persisted verification outcome
is blockchain_verified = false with the corruption detail, which differs from
the unknown-media detail. -/
theorem tamper_detected_distinct (s : LedgerState) (h rid : String) (now : Nat)
    (hw : wellFormedHash h = true)
    (hfound : (s.anchors.find? (fun e => e.file_hash == h)).isSome = true)
    (hbad : checkChain
      (s.anchors.take (s.anchors.findIdx (fun e => e.file_hash == h) + 1)) = false) :
    verify_chain s.anchors h = .error .chainCorrupted ∧
    verify_chain s.anchors h ≠ .error .notFound ∧
    (∃ s2, verify s h rid now =
      (.ok { id := rid, file_hash := h, verification_timestamp := now,
             is_authentic := false, confidence_score := 0, blockchain_verified := false,
             analysis_details := corruptedDetails }, s2)) ∧
    corruptedDetails ≠ unknownDetails := by
  obtain ⟨e, he⟩ := Option.isSome_iff_exists.mp hfound
  have hvc : verify_chain s.anchors h = .error .chainCorrupted := by
    unfold verify_chain
    rw [he, hbad]
    simp
  have hrec : verifyRecord s h rid now =
      { id := rid, file_hash := h, verification_timestamp := now,
        is_authentic := false, confidence_score := 0, blockchain_verified := false,
        analysis_details := corruptedDetails } := by
    unfold verifyRecord
    rw [hvc]
  refine ⟨hvc, by simp [hvc],
    ⟨{ s with verifications := verifyRecord s h rid now :: s.verifications }, ?_⟩, by decide⟩
  simp [verify, hw, hrec]

def hashA : String := String.mk (List.replicate 64 'a')

def hashB : String := String.mk (List.replicate 64 'b')

def hashC : String := String.mk (List.replicate 64 'c')

/-- Replace the file_hash stored in the genesis entry, leaving every digest as
it was: the mutation the tamper-evidence property must detect. -/
def tamperHead (log : List AnchorEntry) (fh : String) : List AnchorEntry :=
  match log with
  | [] => []
  | e :: rest => { e with file_hash := fh } :: rest

def demoTamperedState : LedgerState :=
  { media := [], verifications := [],
    anchors := tamperHead (buildLog [(hashA, 1), (hashB, 2)]) hashC }

theorem tamper_detected_distinct_witness :
    wellFormedHash hashB = true ∧
    (demoTamperedState.anchors.find? (fun e => e.file_hash == hashB)).isSome = true ∧
    checkChain (demoTamperedState.anchors.take
      (demoTamperedState.anchors.findIdx (fun e => e.file_hash == hashB) + 1)) = false ∧
    (verify_chain demoTamperedState.anchors hashB = .error .chainCorrupted ∧
      verify_chain demoTamperedState.anchors hashB ≠ .error .notFound ∧
      (∃ s2, verify demoTamperedState hashB "v1" 9 =
        (.ok { id := "v1", file_hash := hashB, verification_timestamp := 9,
               is_authentic := false, confidence_score := 0, blockchain_verified := false,
               analysis_details := corruptedDetails }, s2)) ∧
      corruptedDetails ≠ unknownDetails) := by
  refine ⟨by decide, by decide, by decide, ?_⟩
  exact tamper_detected_distinct demoTamperedState hashB "v1" 9 (by decide) (by decide)
    (by decide)

/-- Claim C4: for every well-formed hash that was never ingested (no anchor
entry carries it), verify does not fail - it returns and persists a
VerificationRecord with is_authentic = false, blockchain_verified = false,
confidence_score = 0, and the unknown-media analysis details. -/
theorem verify_unknown_hash (s : LedgerState) (h rid : String) (now : Nat)
    (hw : wellFormedHash h = true)
    (habs : ∀ e ∈ s.anchors, e.file_hash ≠ h) :
    verify s h rid now =
      (.ok { id := rid, file_hash := h, verification_timestamp := now,
             is_authentic := false, confidence_score := 0, blockchain_verified := false,
             analysis_details := unknownDetails },
       { s with verifications :=
          { id := rid, file_hash := h, verification_timestamp := now,
            is_authentic := false, confidence_score := 0, blockchain_verified := false,
            analysis_details := unknownDetails } :: s.verifications }) := by
  have hfind : s.anchors.find? (fun e => e.file_hash == h) = none :=
    List.find?_eq_none.mpr (fun e hmem => by simp [habs e hmem])
  have hvc : verify_chain s.anchors h = .error .notFound := by
    unfold verify_chain
    rw [hfind]
  have hrec : verifyRecord s h rid now =
      { id := rid, file_hash := h, verification_timestamp := now,
        is_authentic := false, confidence_score := 0, blockchain_verified := false,
        analysis_details := unknownDetails } := by
    unfold verifyRecord
    rw [hvc]
  unfold verify
  rw [hw, hrec]
  simp

theorem verify_unknown_hash_witness :
    wellFormedHash hashA = true ∧
    (∀ e ∈ emptyLedger.anchors, e.file_hash ≠ hashA) ∧
    verify emptyLedger hashA "v1" 3 =
      (.ok { id := "v1", file_hash := hashA, verification_timestamp := 3,
             is_authentic := false, confidence_score := 0, blockchain_verified := false,
             analysis_details := unknownDetails },
       { emptyLedger with verifications :=
          [{ id := "v1", file_hash := hashA, verification_timestamp := 3,
             is_authentic := false, confidence_score := 0, blockchain_verified := false,
             analysis_details := unknownDetails }] }) := by
  have habs : ∀ e ∈ emptyLedger.anchors, e.file_hash ≠ hashA := by
    intro e hmem
    simp [emptyLedger] at hmem
  exact ⟨by decide, habs, verify_unknown_hash emptyLedger hashA "v1" 3 (by decide) habs⟩

/-- Claim C5: verify never mutates MediaRecords or AnchorEntries - its only
write is prepending one new VerificationRecord (or, on a malformed hash,
nothing at all), and verifying the same hash twice appends two records while
leaving the first intact. -/
theorem verify_pure_audit (s : LedgerState) (h rid rid2 : String) (now now2 : Nat) :
    (verify s h rid now).2.media = s.media ∧
    (verify s h rid now).2.anchors = s.anchors ∧
    ((∃ e, (verify s h rid now).1 = Except.error e ∧ (verify s h rid now).2 = s) ∨
      (∃ r1 r2,
        verify s h rid now =
          (Except.ok r1, { s with verifications := r1 :: s.verifications }) ∧
        verify (verify s h rid now).2 h rid2 now2 =
          (Except.ok r2, { s with verifications := r2 :: r1 :: s.verifications }))) := by
  by_cases hw : wellFormedHash h
  · refine ⟨?_, ?_, Or.inr ⟨verifyRecord s h rid now,
      verifyRecord { s with verifications := verifyRecord s h rid now :: s.verifications }
        h rid2 now2, ?_, ?_⟩⟩ <;>
    simp [verify, hw]
  · refine ⟨?_, ?_, Or.inl ⟨LedgerError.invalidHash, ?_, ?_⟩⟩ <;>
    simp [verify, hw]

/-
Frontend layer: shallow embedding of the handlers in src/frontend/src/App.js.
A handler is modelled as a pure function from its inputs and the outcome of
the network call to the observable effects: the HTTP requests it issues, the
toasts it shows, and the component state it sets.
-/

/-- Whitespace removed by the JavaScript trim() call in App.js. -/
def jsWhitespaceChar (c : Char) : Bool :=
  c == ' ' || c == '\t' || c == '\n' || c == '\r' || c == '\x0b' || c == '\x0c'

/-- Embedding of verifyHash.trim() from App.js: surrounding whitespace removed. -/
def jsTrim (s : String) : String :=
  String.mk (((s.toList.dropWhile jsWhitespaceChar).reverse.dropWhile
    jsWhitespaceChar).reverse)

/-- Embedding of the JavaScript expression (detail || message) used in both
catch blocks of App.js: an absent or empty detail falls back to the message. -/
def jsOrElse (detail : Option String) (message : String) : String :=
  match detail with
  | some d => if d = "" then message else d
  | none => message

/-- One part of a multipart form body, as built by FormData in App.js. -/
inductive FormValue where
  | filePart (name : String)
  | textPart (value : String)
  deriving DecidableEq, Repr

/-- An HTTP request issued through axios in App.js. -/
structure HttpRequest where
  method : String
  path : String
  multipartFields : List (String × FormValue)
  deriving DecidableEq, Repr

inductive ToastKind where
  | info
  | success
  | error
  deriving DecidableEq, Repr

/-- A toast notification shown through sonner in App.js. -/
structure Toast where
  kind : ToastKind
  message : String
  deriving DecidableEq, Repr

/-- Outcome of the axios upload call as seen by the catch block: success, or a
failure carrying the optional response detail and the error message. -/
inductive UploadOutcome where
  | success
  | failure (detail : Option String) (message : String)
  deriving DecidableEq, Repr

/-- Observable effects of handleFileUpload (App.js lines 50-76). -/
structure UploadEffects where
  requests : List HttpRequest
  toasts : List Toast
  activeTabSet : Option String
  deriving DecidableEq, Repr

/-- The POST /api/upload request built by handleFileUpload: a multipart body
holding the selected file under the field name "file". -/
def uploadRequest (f : String) : HttpRequest :=
  { method := "POST", path := "/api/upload",
    multipartFields := [("file", FormValue.filePart f)] }

/-- The GET issued by fetchMedia (App.js lines 25-32). -/
def mediaFetchRequest : HttpRequest :=
  { method := "GET", path := "/api/media", multipartFields := [] }

/-- The GET issued by fetchVerifications (App.js lines 35-42). -/
def verificationsFetchRequest : HttpRequest :=
  { method := "GET", path := "/api/verifications", multipartFields := [] }

/-- Embedding of handleFileUpload (App.js lines 50-76): nothing happens without
a selected file; otherwise a multipart POST is issued, success refreshes the
media list and switches to the dashboard tab, failure shows an error toast
built from the response detail or the error message. -/
def handleFileUpload (file : Option String) (outcome : UploadOutcome) : UploadEffects :=
  match file with
  | none => { requests := [], toasts := [], activeTabSet := none }
  | some f =>
    match outcome with
    | .success =>
      { requests := [uploadRequest f, mediaFetchRequest]
        toasts := [⟨.info, "Uploading and analyzing file..."⟩,
                   ⟨.success, "File uploaded and analyzed successfully!"⟩]
        activeTabSet := some "dashboard" }
    | .failure d msg =>
      { requests := [uploadRequest f]
        toasts := [⟨.info, "Uploading and analyzing file..."⟩,
                   ⟨.error, "Upload failed: " ++ jsOrElse d msg⟩]
        activeTabSet := none }

/-- The analysis_details object of the JSON verification record rendered by
the UI. -/
structure AnalysisView where
  risk_level : String
  analysis_summary : String
  deriving DecidableEq, Repr

/-- The JSON verification record as consumed and displayed by App.js. -/
structure VerificationView where
  id : String
  file_hash : String
  is_authentic : Bool
  confidence_score : ℚ
  blockchain_verified : Bool
  analysis_details : AnalysisView
  deriving DecidableEq, Repr

/-- Outcome of the axios verify call as seen by the catch block. -/
inductive VerifyOutcome where
  | success (data : VerificationView)
  | failure (detail : Option String) (message : String)
  deriving DecidableEq, Repr

/-- Observable effects of handleHashVerification (App.js lines 79-107):
requests issued, toasts shown, and the verification result displayed
afterwards. -/
structure VerifyEffects where
  requests : List HttpRequest
  toasts : List Toast
  shownResult : Option VerificationView
  deriving DecidableEq, Repr

/-- The POST built by handleHashVerification: the trimmed hash travels in the
request path and the request has no body. -/
def verifyRequest (h : String) : HttpRequest :=
  { method := "POST", path := "/api/verify/" ++ h, multipartFields := [] }

/-- Embedding of handleHashVerification (App.js lines 79-107): an input that is
empty after trimming only shows an error toast and leaves the displayed result
untouched; otherwise the displayed result is cleared, one POST is issued with
the trimmed hash as path parameter, success displays the response and refreshes
the verification list, failure shows an error toast. -/
def handleHashVerification (verifyHash : String) (prior : Option VerificationView)
    (outcome : VerifyOutcome) : VerifyEffects :=
  if jsTrim verifyHash = "" then
    { requests := []
      toasts := [⟨.error, "Please enter a hash to verify"⟩]
      shownResult := prior }
  else
    match outcome with
    | .success data =>
      { requests := [verifyRequest (jsTrim verifyHash), verificationsFetchRequest]
        toasts := [⟨.info, "Verifying hash..."⟩, ⟨.success, "Hash verification complete!"⟩]
        shownResult := some data }
    | .failure d msg =>
      { requests := [verifyRequest (jsTrim verifyHash)]
        toasts := [⟨.info, "Verifying hash..."⟩,
                   ⟨.error, "Verification failed: " ++ jsOrElse d msg⟩]
        shownResult := none }

/-- Embedding of the disabled condition of the Verify button
(App.js line 225). -/
def verifyButtonDisabled (loading : Bool) (verifyHash : String) : Bool :=
  loading || (jsTrim verifyHash == "")

/-- The fixed record installed by the Test button (App.js lines 231-251). -/
def testButtonResult : VerificationView :=
  { id := "test-id", file_hash := "test-hash", is_authentic := true,
    confidence_score := 0.95, blockchain_verified := true,
    analysis_details :=
      { risk_level := "low", analysis_summary := "Test result for debugging" } }

/-- Embedding of the Test button onClick (App.js lines 231-251): it only sets
the displayed verification result, independent of any prior display, any
server state, and without any network traffic. -/
def handleTestButton (prior : Option VerificationView) : VerifyEffects :=
  { requests := [], toasts := [], shownResult := some testButtonResult }

/-- Claim C6 counterexample: with server detail "boom" the failure toasts shown
by the upload and verification handlers are "Upload failed: boom" and
"Verification failed: boom" - neither toast message equals the server-provided
detail string itself. -/
theorem toast_detail_counterexample :
    (handleFileUpload (some "f.png") (UploadOutcome.failure (some "boom") "net")).toasts =
      [⟨ToastKind.info, "Uploading and analyzing file..."⟩,
       ⟨ToastKind.error, "Upload failed: boom"⟩] ∧
    ("Upload failed: boom" : String) ≠ "boom" ∧
    (handleHashVerification "ab" none (VerifyOutcome.failure (some "boom") "net")).toasts =
      [⟨ToastKind.info, "Verifying hash..."⟩,
       ⟨ToastKind.error, "Verification failed: boom"⟩] ∧
    ("Verification failed: boom" : String) ≠ "boom" := by
  refine ⟨by decide, by decide, by decide, by decide⟩

/-- Claim C6 (amended): for every failed upload or verification whose error
response carries a non-empty detail string, the error toast surfaces that
detail verbatim as the suffix of a fixed prefix - "Upload failed: " plus the
detail, respectively "Verification failed: " plus the detail. -/
theorem toast_detail_surfaced (f hsh d msg : String) (prior : Option VerificationView)
    (hd : d ≠ "") (hne : jsTrim hsh ≠ "") :
    (handleFileUpload (some f) (UploadOutcome.failure (some d) msg)).toasts.map
        Toast.message =
      ["Uploading and analyzing file...", "Upload failed: " ++ d] ∧
    (handleHashVerification hsh prior (VerifyOutcome.failure (some d) msg)).toasts.map
        Toast.message =
      ["Verifying hash...", "Verification failed: " ++ d] := by
  constructor
  · simp [handleFileUpload, jsOrElse, hd]
  · unfold handleHashVerification
    rw [if_neg hne]
    simp [jsOrElse, hd]

theorem toast_detail_surfaced_witness :
    ("boom" : String) ≠ "" ∧ jsTrim "ab" ≠ "" ∧
    ((handleFileUpload (some "f.png") (UploadOutcome.failure (some "boom") "net")).toasts.map
        Toast.message =
      ["Uploading and analyzing file...", "Upload failed: " ++ "boom"] ∧
     (handleHashVerification "ab" none (VerifyOutcome.failure (some "boom") "net")).toasts.map
        Toast.message =
      ["Verifying hash...", "Verification failed: " ++ "boom"]) :=
  ⟨by decide, by decide,
    toast_detail_surfaced "f.png" "ab" "boom" "net" none (by decide) (by decide)⟩

/-- Claim C7: for every hash input that is non-empty after trimming, the
verification handler issues exactly one POST request, to the path
/api/verify/ followed by the trimmed hash, carrying the hash as a path
parameter with no body field, and on success it displays the returned
verification record. -/
theorem hash_verification_single_post (h : String) (prior : Option VerificationView)
    (outcome : VerifyOutcome) (data : VerificationView)
    (hne : jsTrim h ≠ "") :
    (handleHashVerification h prior outcome).requests.filter
        (fun r => r.method == "POST") = [verifyRequest (jsTrim h)] ∧
    (verifyRequest (jsTrim h)).method = "POST" ∧
    (verifyRequest (jsTrim h)).path = "/api/verify/" ++ jsTrim h ∧
    (verifyRequest (jsTrim h)).multipartFields = [] ∧
    (handleHashVerification h prior (VerifyOutcome.success data)).shownResult
      = some data := by
  refine ⟨?_, rfl, rfl, rfl, ?_⟩
  · cases outcome with
    | success d2 =>
      unfold handleHashVerification
      rw [if_neg hne]
      simp [verifyRequest, verificationsFetchRequest]
    | failure d2 m2 =>
      unfold handleHashVerification
      rw [if_neg hne]
      simp [verifyRequest]
  · unfold handleHashVerification
    rw [if_neg hne]

theorem hash_verification_single_post_witness :
    jsTrim "  abc " ≠ "" ∧
    ((handleHashVerification "  abc " none
        (VerifyOutcome.failure none "net")).requests.filter
        (fun r => r.method == "POST") = [verifyRequest (jsTrim "  abc ")] ∧
     (verifyRequest (jsTrim "  abc ")).method = "POST" ∧
     (verifyRequest (jsTrim "  abc ")).path = "/api/verify/" ++ jsTrim "  abc " ∧
     (verifyRequest (jsTrim "  abc ")).multipartFields = [] ∧
     (handleHashVerification "  abc " none
        (VerifyOutcome.success testButtonResult)).shownResult = some testButtonResult) :=
  ⟨by decide,
    hash_verification_single_post "  abc " none (VerifyOutcome.failure none "net")
      testButtonResult (by decide)⟩

/-- Claim C8: for every selected file, the upload handler issues a POST to
/api/upload whose body is multipart form data containing the file under the
field name "file" (it is the first request issued, for every outcome). -/
theorem upload_multipart_file_field (f : String) (outcome : UploadOutcome) :
    (handleFileUpload (some f) outcome).requests.head? = some (uploadRequest f) ∧
    (uploadRequest f).method = "POST" ∧
    (uploadRequest f).path = "/api/upload" ∧
    (uploadRequest f).multipartFields = [("file", FormValue.filePart f)] := by
  cases outcome <;> exact ⟨rfl, rfl, rfl, rfl⟩

/-- Claim C9: the Test button sets the displayed verification result to a fixed
record - is_authentic true, confidence 0.95, blockchain_verified true, risk
level "low" - without issuing any network request, whatever was displayed
before and independent of any ledger state. -/
theorem test_button_fixed_result (prior : Option VerificationView) :
    (handleTestButton prior).requests = [] ∧
    (handleTestButton prior).toasts = [] ∧
    (handleTestButton prior).shownResult = some testButtonResult ∧
    testButtonResult.is_authentic = true ∧
    testButtonResult.confidence_score = 0.95 ∧
    testButtonResult.blockchain_verified = true ∧
    testButtonResult.analysis_details.risk_level = "low" :=
  ⟨rfl, rfl, rfl, rfl, rfl, rfl, rfl⟩

/-- Claim C10: for every hash input that is empty or whitespace after trimming,
the verification handler issues no HTTP request, leaves the displayed result
unchanged, shows only the error toast, and the Verify button is disabled for
such input. -/
theorem empty_hash_no_request (h : String) (prior : Option VerificationView)
    (outcome : VerifyOutcome) (loading : Bool)
    (he : jsTrim h = "") :
    (handleHashVerification h prior outcome).requests = [] ∧
    (handleHashVerification h prior outcome).shownResult = prior ∧
    (handleHashVerification h prior outcome).toasts =
      [⟨ToastKind.error, "Please enter a hash to verify"⟩] ∧
    verifyButtonDisabled loading h = true := by
  unfold handleHashVerification
  rw [if_pos he]
  refine ⟨rfl, rfl, rfl, ?_⟩
  rw [verifyButtonDisabled, he]
  simp

theorem empty_hash_no_request_witness :
    jsTrim "   " = "" ∧
    ((handleHashVerification "   " none (VerifyOutcome.failure none "net")).requests = [] ∧
     (handleHashVerification "   " none (VerifyOutcome.failure none "net")).shownResult
       = none ∧
     (handleHashVerification "   " none (VerifyOutcome.failure none "net")).toasts =
       [⟨ToastKind.error, "Please enter a hash to verify"⟩] ∧
     verifyButtonDisabled false "   " = true) :=
  ⟨by decide,
    empty_hash_no_request "   " none (VerifyOutcome.failure none "net") false (by decide)⟩

end BlockID
